import Mathlib

/-!
Shallow embedding of the memory-map elaboration engine of `vhdl_doc`
(`src/memory_map/schema.rs`), together with theorems checking the
natural-language specification against it.

Modelling conventions:
* Rust `u64` values (addresses, cursors, string lengths) are `Nat` carrying
  the two's-complement wrap explicitly: every arithmetic step that the Rust
  program performs on `u64` is taken modulo `2 ^ 64` (release-profile
  wrapping semantics).  Likewise `u32` is `Nat` modulo `2 ^ 32` and `i64` is
  an `Int` normalised into `[-2 ^ 63, 2 ^ 63)`.
* `anyhow` error values are modelled by the inductive `RenderError`, one
  constructor per `anyhow!` site, carrying the data interpolated into the
  message that the claims refer to (field name, resolved address, bound).
* In-place mutation of the field tree (`&mut self`) is modelled by returning
  the updated tree; the `&mut u64` running address is modelled by state
  passing.  Because the Rust code mutates earlier siblings before a later
  sibling fails, the recursive renderer returns the (possibly partially
  updated) tree together with `Except RenderError Nat` for the new cursor.
-/

namespace Schema

abbrev Str := String

/-- Wrap-around modulus of Rust `u64`. -/
def U64 : Nat := 2 ^ 64

/-- Wrap-around modulus of Rust `u32`. -/
def U32 : Nat := 2 ^ 32

/-- Rust release-mode `u64` addition (`a + b`, wrapping). -/
def wadd64 (a b : Nat) : Nat := (a + b) % U64

/-- Rust release-mode `u64` subtraction (`a - b`, wrapping). -/
def wsub64 (a b : Nat) : Nat := (a % U64 + (U64 - b % U64)) % U64

/-- Rust release-mode `u32` subtraction (`a - b`, wrapping). -/
def wsub32 (a b : Nat) : Nat := (a % U32 + (U32 - b % U32)) % U32

/-- Rust release-mode `u64` exponentiation `b.pow(e)`: repeated wrapping
multiplication, whose result is the mathematical power modulo `2 ^ 64`. -/
def wpow64 (b e : Nat) : Nat := b ^ e % U64

/-- Reinterpret a `u64` bit pattern as a two's-complement `i64`. -/
def toI64 (n : Nat) : Int :=
  let m := n % U64
  if m < 2 ^ 63 then (m : Int) else (m : Int) - (U64 : Int)

/-- Normalise an integer into the `i64` range, as Rust wrapping arithmetic
does after each `i64` operation. -/
def wrapI64 (z : Int) : Int := toI64 (z % (U64 : Int)).toNat

/-- Normalise an integer into the `i32` range (for the `high - low + 1`
computation on `i32` subscripts). -/
def wrapI32 (z : Int) : Int :=
  let m := (z % ((U32 : Nat) : Int)).toNat
  if m < 2 ^ 31 then (m : Int) else (m : Int) - ((U32 : Nat) : Int)

/-- Rust release-mode `2i64.pow(e)`: repeated wrapping `i64` multiplication;
the result is the bit pattern of `2 ^ e mod 2 ^ 64` read as two's complement. -/
def wpow2I64 (e : Nat) : Int := toI64 (2 ^ e)

/-- `Protocol` from `schema.rs`: global constraints of one memory map.
`address_max : u64`, `data_min : u8`. -/
structure Protocol where
  name : Option Str
  address_max : Nat
  data_min : Nat
deriving Repr

/-- `Access` from `schema.rs`; `#[default]` is `Read`. -/
inductive Access where
  | Read
  | Write
  | ReadWrite
deriving DecidableEq, Repr

/-- `BitfieldStyle` from `schema.rs` (`HashMap` modelled as an association
list; its contents are never inspected by the renderer). -/
inductive BitfieldStyle where
  | FromZero (names : List Str)
  | Discrete (pairs : List (Str × Nat))
deriving DecidableEq, Repr

/-- `FieldType` from `schema.rs`.  `String`-length is `u64`;
`Enum`/`Bitfield`/`Unsigned`/`Signed` lengths are `u32`; fixed-point
subscripts are `i32`. -/
inductive FieldType where
  | Set
  | String (length : Nat)
  | Enum (length : Nat) (map : List (Str × Nat))
  | Bitfield (length : Nat) (bits : BitfieldStyle)
  | Unsigned (length : Nat)
  | Signed (length : Nat)
  | UFixed (high low : Int)
  | SFixed (high low : Int)
deriving DecidableEq, Repr

/-- `Value` from `schema.rs`: the untagged default-value union.
`Unsigned` carries a `u64`, `Signed` an `i64`, `Float` an `f64`. -/
inductive Value where
  | String (s : Str)
  | Unsigned (n : Nat)
  | Signed (n : Int)
  | Float (x : Float)
deriving Repr

/-- `OneOrMoreField` from `schema.rs`, parameterised so that `Field` can
nest it. -/
inductive OneOrMoreField (F : Type) where
  | One (f : F)
  | More (fs : List F)
deriving Repr

/-- `Field` from `schema.rs`: one node of the register tree.  The field
order matches the Rust struct: name, address, access, field_type, contains,
value, unit, min, max, range.  `range` is `#[serde(skip_deserializing)]`,
so every decoded field starts with `range = ""`. -/
inductive Field where
  | mk (name : Str) (address : Option Nat) (access : Option Access)
      (field_type : FieldType) (contains : Option (OneOrMoreField Field))
      (value : Option Value) (unit : Option Str)
      (min max : Option Float) (range : Str)
deriving Repr

def Field.name : Field → Str
  | .mk n _ _ _ _ _ _ _ _ _ => n

def Field.address : Field → Option Nat
  | .mk _ a _ _ _ _ _ _ _ _ => a

def Field.access : Field → Option Access
  | .mk _ _ ac _ _ _ _ _ _ _ => ac

def Field.field_type : Field → FieldType
  | .mk _ _ _ ft _ _ _ _ _ _ => ft

def Field.contains : Field → Option (OneOrMoreField Field)
  | .mk _ _ _ _ c _ _ _ _ _ => c

def Field.value : Field → Option Value
  | .mk _ _ _ _ _ v _ _ _ _ => v

def Field.range : Field → Str
  | .mk _ _ _ _ _ _ _ _ _ r => r

/-- One constructor per `anyhow!` site in `schema.rs`, carrying the data of
the formatted message that the claims inspect. -/
inductive RenderError where
  /-- "Schema error. Field type 'set' was provided, but key 'contains' was not" -/
  | setWithoutContains
  /-- "Provided string value is longer than the field type" -/
  | stringTooLong
  /-- "Provided value ... doesn't match the field type ..." (all four leaf renderers) -/
  | valueMismatch (name : Str)
  /-- "Numeric value ... requires more than ... bits specified by the field type"
  (unsigned and signed renderers) -/
  | valueTooWide (name : Str)
  /-- "Numeric value ... cannot be represented by the field type ..." (ufixed renderer) -/
  | valueNotRepresentable (name : Str)
  /-- "Field {name} with address {addr} and length/type ... would overflow the
  protocol maximum address {max}" -/
  | addressOverflow (name : Str) (address : Nat) (addressMax : Nat)
deriving DecidableEq, Repr

/-- Value check of `Field::render_field_type_string` (`schema.rs` 349-365):
a present value must be a `Value::String` whose Rust byte length
(`string.len()`, i.e. UTF-8 size) does not exceed the declared length. -/
def checkValueString (name : Str) (value : Option Value) (length : Nat) :
    Except RenderError Unit :=
  match value with
  | none => .ok ()
  | some (.String s) =>
      if s.utf8ByteSize > length then .error .stringTooLong else .ok ()
  | some _ => .error (.valueMismatch name)

/-- Value check of `Field::render_field_type_unsigned` (`schema.rs` 399-418):
`if *number > 2u64.pow(*length) - 1` with wrapping `u64` arithmetic. -/
def checkValueUnsigned (name : Str) (value : Option Value) (length : Nat) :
    Except RenderError Unit :=
  match value with
  | none => .ok ()
  | some (.Unsigned number) =>
      if number > wsub64 (wpow64 2 length) 1 then .error (.valueTooWide name)
      else .ok ()
  | some _ => .error (.valueMismatch name)

/-- Value check of `Field::render_field_type_signed` (`schema.rs` 456-475):
`(*number > 2i64.pow(*length - 1) - 1) || (*number < -2i64.pow(*length - 1))`
with wrapping `u32` subtraction in the exponent and wrapping `i64` arithmetic. -/
def checkValueSigned (name : Str) (value : Option Value) (length : Nat) :
    Except RenderError Unit :=
  match value with
  | none => .ok ()
  | some (.Signed number) =>
      let p2 := wpow2I64 (wsub32 length 1)
      if number > wrapI64 (p2 - 1) ∨ number < wrapI64 (-p2) then
        .error (.valueTooWide name)
      else .ok ()
  | some _ => .error (.valueMismatch name)

/-- Value check of `Field::render_field_type_ufixed` (`schema.rs` 514-533):
`2f64.powf(high) - 2f64.powf(low)` compared against the `f64` value. -/
def checkValueUFixed (name : Str) (value : Option Value) (high low : Int) :
    Except RenderError Unit :=
  match value with
  | none => .ok ()
  | some (.Float number) =>
      let mx := Float.pow 2 (Float.ofInt high) - Float.pow 2 (Float.ofInt low)
      if number > mx then .error (.valueNotRepresentable name) else .ok ()
  | some _ => .error (.valueMismatch name)

/-- Byte footprint of `Unsigned`/`Signed` (`schema.rs` 430-433, 487-490):
`let mut bytes = ((*length as f64) / 8f64).ceil() as u32;
 if bytes < protocol.data_min as u32 { bytes = protocol.data_min as u32 }`.
The float computation is exact for every `u32` length (a `u32` and its
eighth fit in the 53-bit `f64` mantissa), so the ceiling equals the natural
ceiling division `(length + 7) / 8`. -/
def unsigned_bytes (length : Nat) (data_min : Nat) : Nat :=
  let bytes := (length + 7) / 8
  if bytes < data_min then data_min else bytes

/-- Byte footprint of `UFixed` (`schema.rs` 546-550):
`let length = *high - *low + 1` on `i32` (wrapping), then
`((length as f64) / 8f64).ceil() as u64` (the `f64 as u64` cast saturates a
negative ceiling to 0), rounded up to `data_min`. -/
def ufixed_bytes (high low : Int) (data_min : Nat) : Nat :=
  let length := wrapI32 (high - low + 1)
  let bytes := if length ≤ 0 then 0 else (length.toNat + 7) / 8
  if bytes < data_min then data_min else bytes

/-- `Field::render_field_type_string` (`schema.rs` 342-390).  Order of
effects as in the source: value check (early return leaves the field
untouched), then access resolution, then address resolution, then the
overflow check (the already-mutated field is kept on this error too),
then the cursor advances to `my_address + length` (wrapping `u64`). -/
def render_field_type_string (f : Field) (length : Nat) (p : Protocol)
    (parent_access : Access) (running_address : Nat) :
    Field × Except RenderError Nat :=
  match f with
  | .mk nm addr acc ft ct v u mn mx rg =>
    match checkValueString nm v length with
    | .error e => (.mk nm addr acc ft ct v u mn mx rg, .error e)
    | .ok _ =>
      let acc2 := match acc with | none => some parent_access | some a => some a
      let my_address := match addr with | some a => a | none => running_address
      if wadd64 my_address length > p.address_max then
        (.mk nm (some my_address) acc2 ft ct v u mn mx rg,
          .error (.addressOverflow nm my_address p.address_max))
      else
        (.mk nm (some my_address) acc2 ft ct v u mn mx rg,
          .ok (wadd64 my_address length))

/-- `Field::render_field_type_unsigned` (`schema.rs` 392-447). -/
def render_field_type_unsigned (f : Field) (length : Nat) (p : Protocol)
    (parent_access : Access) (running_address : Nat) :
    Field × Except RenderError Nat :=
  match f with
  | .mk nm addr acc ft ct v u mn mx rg =>
    match checkValueUnsigned nm v length with
    | .error e => (.mk nm addr acc ft ct v u mn mx rg, .error e)
    | .ok _ =>
      let acc2 := match acc with | none => some parent_access | some a => some a
      let my_address := match addr with | some a => a | none => running_address
      let bytes := unsigned_bytes length p.data_min
      if wadd64 my_address bytes > p.address_max then
        (.mk nm (some my_address) acc2 ft ct v u mn mx rg,
          .error (.addressOverflow nm my_address p.address_max))
      else
        (.mk nm (some my_address) acc2 ft ct v u mn mx rg,
          .ok (wadd64 my_address bytes))

/-- `Field::render_field_type_signed` (`schema.rs` 449-504). -/
def render_field_type_signed (f : Field) (length : Nat) (p : Protocol)
    (parent_access : Access) (running_address : Nat) :
    Field × Except RenderError Nat :=
  match f with
  | .mk nm addr acc ft ct v u mn mx rg =>
    match checkValueSigned nm v length with
    | .error e => (.mk nm addr acc ft ct v u mn mx rg, .error e)
    | .ok _ =>
      let acc2 := match acc with | none => some parent_access | some a => some a
      let my_address := match addr with | some a => a | none => running_address
      let bytes := unsigned_bytes length p.data_min
      if wadd64 my_address bytes > p.address_max then
        (.mk nm (some my_address) acc2 ft ct v u mn mx rg,
          .error (.addressOverflow nm my_address p.address_max))
      else
        (.mk nm (some my_address) acc2 ft ct v u mn mx rg,
          .ok (wadd64 my_address bytes))

/-- `Field::render_field_type_ufixed` (`schema.rs` 506-564). -/
def render_field_type_ufixed (f : Field) (high low : Int) (p : Protocol)
    (parent_access : Access) (running_address : Nat) :
    Field × Except RenderError Nat :=
  match f with
  | .mk nm addr acc ft ct v u mn mx rg =>
    match checkValueUFixed nm v high low with
    | .error e => (.mk nm addr acc ft ct v u mn mx rg, .error e)
    | .ok _ =>
      let acc2 := match acc with | none => some parent_access | some a => some a
      let my_address := match addr with | some a => a | none => running_address
      let bytes := ufixed_bytes high low p.data_min
      if wadd64 my_address bytes > p.address_max then
        (.mk nm (some my_address) acc2 ft ct v u mn mx rg,
          .error (.addressOverflow nm my_address p.address_max))
      else
        (.mk nm (some my_address) acc2 ft ct v u mn mx rg,
          .ok (wadd64 my_address bytes))

mutual

/-- `Field::render_recursive` (`schema.rs` 292-340).  Dispatches on
`field_type`: `Set` recurses into `contains` threading the running address
and passing `parent_access` through unchanged; `Enum`, `Bitfield` and
`SFixed` return `Ok(())` without touching the field or the cursor; the four
remaining leaves call their renderers.  The updated tree is returned with
the outcome because the Rust code mutates `self` in place even on the error
path. -/
def render_recursive (f : Field) (p : Protocol) (parent_access : Access)
    (running_address : Nat) : Field × Except RenderError Nat :=
  match f with
  | .mk nm addr acc ft ct v u mn mx rg =>
    match ft with
    | .Set =>
      match ct with
      | some (.One child) =>
          let r := render_recursive child p parent_access running_address
          (.mk nm addr acc .Set (some (.One r.1)) v u mn mx rg, r.2)
      | some (.More children) =>
          let r := render_list children p parent_access running_address
          (.mk nm addr acc .Set (some (.More r.1)) v u mn mx rg, r.2)
      | none =>
          (.mk nm addr acc .Set none v u mn mx rg, .error .setWithoutContains)
    | .String length =>
        render_field_type_string (.mk nm addr acc (.String length) ct v u mn mx rg)
          length p parent_access running_address
    | .Enum length map =>
        (.mk nm addr acc (.Enum length map) ct v u mn mx rg, .ok running_address)
    | .Bitfield length bits =>
        (.mk nm addr acc (.Bitfield length bits) ct v u mn mx rg, .ok running_address)
    | .Unsigned length =>
        render_field_type_unsigned (.mk nm addr acc (.Unsigned length) ct v u mn mx rg)
          length p parent_access running_address
    | .Signed length =>
        render_field_type_signed (.mk nm addr acc (.Signed length) ct v u mn mx rg)
          length p parent_access running_address
    | .UFixed high low =>
        render_field_type_ufixed (.mk nm addr acc (.UFixed high low) ct v u mn mx rg)
          high low p parent_access running_address
    | .SFixed high low =>
        (.mk nm addr acc (.SFixed high low) ct v u mn mx rg, .ok running_address)

/-- The `OneOrMoreField::More` loop of `Field::render_recursive`
(`schema.rs` 305-314): children are rendered in declaration order, each
receiving the cursor left by the previous one; the `?` operator stops at
the first error, keeping the mutations already applied to earlier siblings
and leaving the remaining siblings untouched. -/
def render_list (fs : List Field) (p : Protocol) (parent_access : Access)
    (running_address : Nat) : List Field × Except RenderError Nat :=
  match fs with
  | [] => ([], .ok running_address)
  | f :: rest =>
    match render_recursive f p parent_access running_address with
    | (f2, .ok addr2) =>
        let r := render_list rest p parent_access addr2
        (f2 :: r.1, r.2)
    | (f2, .error e) => (f2 :: rest, .error e)

end

/-- `Field::render` (`schema.rs` 283-290), the public elaboration entry
point.  The inherited access starts from the root field's explicit access
(`Access::default()` = `Read` if absent) and the running cursor from the
root field's explicit address (0 if absent).  The Rust function returns
only `Result<(), _>` and drops the final cursor, which lived in a
temporary; the model returns the rendered tree and the cursor outcome so
that theorems can observe them. -/
def render (f : Field) (p : Protocol) : Field × Except RenderError Nat :=
  render_recursive f p (f.access.getD .Read) (f.address.getD 0)

/-- Value check dispatched on the field type, exactly as the `field_type`
match of `render_recursive` selects the per-type renderers; `Set`, `Enum`,
`Bitfield` and `SFixed` perform no value check. -/
def leaf_value_check (ft : FieldType) (nm : Str) (v : Option Value) :
    Except RenderError Unit :=
  match ft with
  | .String l => checkValueString nm v l
  | .Unsigned l => checkValueUnsigned nm v l
  | .Signed l => checkValueSigned nm v l
  | .UFixed high low => checkValueUFixed nm v high low
  | _ => .ok ()

/-- Byte footprint of the four handled leaf types, read off the cursor
advance of the corresponding renderer; `none` for the types whose rendering
never moves the cursor (`Set`, `Enum`, `Bitfield`, `SFixed`). -/
def leaf_footprint : FieldType → Nat → Option Nat
  | .String l, _ => some l
  | .Unsigned l, dm => some (unsigned_bytes l dm)
  | .Signed l, dm => some (unsigned_bytes l dm)
  | .UFixed high low, dm => some (ufixed_bytes high low dm)
  | _, _ => none

/-! Debug-profile (overflow-checks-on) models of the three arithmetic
expressions in `schema.rs` that can overflow; `none` models the panic that
the checked build raises.  The release build instead wraps, which is the
semantics of the renderer definitions above. -/

/-- Checked `u64` `pow` (for base 2 the intermediate products overflow
exactly when the final power does). -/
def checkedPow64 (b e : Nat) : Option Nat :=
  if b ^ e < U64 then some (b ^ e) else none

/-- Checked `u64` subtraction. -/
def checkedSub64 (a b : Nat) : Option Nat :=
  if b ≤ a then some (a - b) else none

/-- Checked `u32` subtraction (for the `*length - 1` exponent of the signed
value check). -/
def checkedSub32 (a b : Nat) : Option Nat :=
  if b ≤ a then some (a - b) else none

/-- Checked `u64` addition (for the `my_address + bytes` overflow
comparison). -/
def checkedAdd64 (a b : Nat) : Option Nat :=
  if a + b < U64 then some (a + b) else none

/-- Debug-profile model of `2u64.pow(*length) - 1` from the `Unsigned`
value check (`schema.rs` 402). -/
def checkedUnsignedBound (length : Nat) : Option Nat :=
  (checkedPow64 2 length).bind fun x => checkedSub64 x 1

/-! Concrete inputs used by the scenario claims. -/

/-- Protocol of the specification scenarios: `addressMax = 15, dataMin = 1`. -/
def protoC1 : Protocol := ⟨none, 15, 1⟩

/-- Same scenario with `addressMax = 1`. -/
def protoMax1 : Protocol := ⟨none, 1, 1⟩

/-- `{name: "a", type: Unsigned(8)}`, no explicit address or access. -/
def fieldA : Field := .mk "a" none none (.Unsigned 8) none none none none none ""

/-- `{name: "b", type: Unsigned(8)}`, no explicit address or access. -/
def fieldB : Field := .mk "b" none none (.Unsigned 8) none none none none none ""

/-- Root `Set` containing `[a, b]`. -/
def rootC1 : Field := .mk "root" none none .Set (some (.More [fieldA, fieldB])) none none none none ""

/-- An `Unsigned(8)` leaf with the explicit address `u64::MAX`
(`0xFFFF_FFFF_FFFF_FFFF`, accepted by the hex-or-decimal address parser). -/
def wrapField : Field := .mk "w" (some (U64 - 1)) none (.Unsigned 8) none none none none none ""

/-- A leaf with no explicit access. -/
def leafNoAccess : Field := .mk "l" none none (.Unsigned 8) none none none none none ""

/-- A `Set` with the explicit access `Write`, containing `leafNoAccess`. -/
def innerSetWrite : Field :=
  .mk "inner" none (some .Write) .Set (some (.One leafNoAccess)) none none none none ""

/-- Root `Set` (no explicit access) containing `innerSetWrite`. -/
def rootC3 : Field := .mk "root" none none .Set (some (.One innerSetWrite)) none none none none ""

/-- A root field of type `Enum` (length 1, empty map). -/
def enumField : Field := .mk "e" none none (.Enum 1 []) none none none none none ""

/-- An `SFixed{high: 7, low: 0}` leaf, no explicit address or access. -/
def sfixedField : Field := .mk "s" none none (.SFixed 7 0) none none none none none ""

/-- `{type: Unsigned(4), value: 20}` from the value-range scenario. -/
def unsigned4Field : Field :=
  .mk "f" none none (.Unsigned 4) none (some (.Unsigned 20)) none none none ""

/-! Theorems.  First a few helper lemmas about the four leaf renderers,
shared by several claims. -/

/-- Helper: a successful string render yields the wrapped end address as the
new cursor, and that cursor passed the overflow check. -/
theorem render_string_ok (nm : Str) (addr : Option Nat) (acc : Option Access)
    (ft : FieldType) (ct : Option (OneOrMoreField Field)) (v : Option Value)
    (u : Option Str) (mn mx : Option Float) (rg : Str) (length : Nat)
    (p : Protocol) (pa : Access) (ra ra2 : Nat)
    (h : (render_field_type_string (.mk nm addr acc ft ct v u mn mx rg) length p pa ra).2 = .ok ra2) :
    ra2 = wadd64 (addr.getD ra) length ∧ wadd64 (addr.getD ra) length ≤ p.address_max := by
  cases addr <;>
    (simp only [render_field_type_string, Option.getD] at h ⊢
     split at h
     · simp at h
     · split at h
       · simp at h
       · simp only [Except.ok.injEq] at h
         omega)

/-- Helper: a string render whose value check passes and whose wrapped end
address exceeds `address_max` reports the address-overflow error. -/
theorem render_string_overflow (nm : Str) (addr : Option Nat) (acc : Option Access)
    (ft : FieldType) (ct : Option (OneOrMoreField Field)) (v : Option Value)
    (u : Option Str) (mn mx : Option Float) (rg : Str) (length : Nat)
    (p : Protocol) (pa : Access) (ra : Nat)
    (hv : checkValueString nm v length = .ok ())
    (hb : wadd64 (addr.getD ra) length > p.address_max) :
    (render_field_type_string (.mk nm addr acc ft ct v u mn mx rg) length p pa ra).2 =
      .error (.addressOverflow nm (addr.getD ra) p.address_max) := by
  cases addr <;>
    (simp only [render_field_type_string, Option.getD] at hb ⊢
     split
     · next e heq => rw [hv] at heq; exact Except.noConfusion heq
     · split
       · rfl
       · next hcond => exact absurd hb hcond)

/-- Helper: a successful unsigned render yields the wrapped end address as
the new cursor, and that cursor passed the overflow check. -/
theorem render_unsigned_ok (nm : Str) (addr : Option Nat) (acc : Option Access)
    (ft : FieldType) (ct : Option (OneOrMoreField Field)) (v : Option Value)
    (u : Option Str) (mn mx : Option Float) (rg : Str) (length : Nat)
    (p : Protocol) (pa : Access) (ra ra2 : Nat)
    (h : (render_field_type_unsigned (.mk nm addr acc ft ct v u mn mx rg) length p pa ra).2 = .ok ra2) :
    ra2 = wadd64 (addr.getD ra) (unsigned_bytes length p.data_min) ∧
      wadd64 (addr.getD ra) (unsigned_bytes length p.data_min) ≤ p.address_max := by
  cases addr <;>
    (simp only [render_field_type_unsigned, Option.getD] at h ⊢
     split at h
     · simp at h
     · split at h
       · simp at h
       · simp only [Except.ok.injEq] at h
         omega)

/-- Helper: an unsigned render whose value check passes and whose wrapped
end address exceeds `address_max` reports the address-overflow error. -/
theorem render_unsigned_overflow (nm : Str) (addr : Option Nat) (acc : Option Access)
    (ft : FieldType) (ct : Option (OneOrMoreField Field)) (v : Option Value)
    (u : Option Str) (mn mx : Option Float) (rg : Str) (length : Nat)
    (p : Protocol) (pa : Access) (ra : Nat)
    (hv : checkValueUnsigned nm v length = .ok ())
    (hb : wadd64 (addr.getD ra) (unsigned_bytes length p.data_min) > p.address_max) :
    (render_field_type_unsigned (.mk nm addr acc ft ct v u mn mx rg) length p pa ra).2 =
      .error (.addressOverflow nm (addr.getD ra) p.address_max) := by
  cases addr <;>
    (simp only [render_field_type_unsigned, Option.getD] at hb ⊢
     split
     · next e heq => rw [hv] at heq; exact Except.noConfusion heq
     · split
       · rfl
       · next hcond => exact absurd hb hcond)

/-- Helper: a successful signed render yields the wrapped end address as
the new cursor, and that cursor passed the overflow check. -/
theorem render_signed_ok (nm : Str) (addr : Option Nat) (acc : Option Access)
    (ft : FieldType) (ct : Option (OneOrMoreField Field)) (v : Option Value)
    (u : Option Str) (mn mx : Option Float) (rg : Str) (length : Nat)
    (p : Protocol) (pa : Access) (ra ra2 : Nat)
    (h : (render_field_type_signed (.mk nm addr acc ft ct v u mn mx rg) length p pa ra).2 = .ok ra2) :
    ra2 = wadd64 (addr.getD ra) (unsigned_bytes length p.data_min) ∧
      wadd64 (addr.getD ra) (unsigned_bytes length p.data_min) ≤ p.address_max := by
  cases addr <;>
    (simp only [render_field_type_signed, Option.getD] at h ⊢
     split at h
     · simp at h
     · split at h
       · simp at h
       · simp only [Except.ok.injEq] at h
         omega)

/-- Helper: a signed render whose value check passes and whose wrapped end
address exceeds `address_max` reports the address-overflow error. -/
theorem render_signed_overflow (nm : Str) (addr : Option Nat) (acc : Option Access)
    (ft : FieldType) (ct : Option (OneOrMoreField Field)) (v : Option Value)
    (u : Option Str) (mn mx : Option Float) (rg : Str) (length : Nat)
    (p : Protocol) (pa : Access) (ra : Nat)
    (hv : checkValueSigned nm v length = .ok ())
    (hb : wadd64 (addr.getD ra) (unsigned_bytes length p.data_min) > p.address_max) :
    (render_field_type_signed (.mk nm addr acc ft ct v u mn mx rg) length p pa ra).2 =
      .error (.addressOverflow nm (addr.getD ra) p.address_max) := by
  cases addr <;>
    (simp only [render_field_type_signed, Option.getD] at hb ⊢
     split
     · next e heq => rw [hv] at heq; exact Except.noConfusion heq
     · split
       · rfl
       · next hcond => exact absurd hb hcond)

/-- Helper: a successful ufixed render yields the wrapped end address as
the new cursor, and that cursor passed the overflow check. -/
theorem render_ufixed_ok (nm : Str) (addr : Option Nat) (acc : Option Access)
    (ft : FieldType) (ct : Option (OneOrMoreField Field)) (v : Option Value)
    (u : Option Str) (mn mx : Option Float) (rg : Str) (high low : Int)
    (p : Protocol) (pa : Access) (ra ra2 : Nat)
    (h : (render_field_type_ufixed (.mk nm addr acc ft ct v u mn mx rg) high low p pa ra).2 = .ok ra2) :
    ra2 = wadd64 (addr.getD ra) (ufixed_bytes high low p.data_min) ∧
      wadd64 (addr.getD ra) (ufixed_bytes high low p.data_min) ≤ p.address_max := by
  cases addr <;>
    (simp only [render_field_type_ufixed, Option.getD] at h ⊢
     split at h
     · simp at h
     · split at h
       · simp at h
       · simp only [Except.ok.injEq] at h
         omega)

/-- Helper: a ufixed render whose value check passes and whose wrapped end
address exceeds `address_max` reports the address-overflow error. -/
theorem render_ufixed_overflow (nm : Str) (addr : Option Nat) (acc : Option Access)
    (ft : FieldType) (ct : Option (OneOrMoreField Field)) (v : Option Value)
    (u : Option Str) (mn mx : Option Float) (rg : Str) (high low : Int)
    (p : Protocol) (pa : Access) (ra : Nat)
    (hv : checkValueUFixed nm v high low = .ok ())
    (hb : wadd64 (addr.getD ra) (ufixed_bytes high low p.data_min) > p.address_max) :
    (render_field_type_ufixed (.mk nm addr acc ft ct v u mn mx rg) high low p pa ra).2 =
      .error (.addressOverflow nm (addr.getD ra) p.address_max) := by
  cases addr <;>
    (simp only [render_field_type_ufixed, Option.getD] at hb ⊢
     split
     · next e heq => rw [hv] at heq; exact Except.noConfusion heq
     · split
       · rfl
       · next hcond => exact absurd hb hcond)

/-- Helper: `toI64` is the identity below `2^63`. -/
theorem toI64_of_lt (n : Nat) (h : n < 2 ^ 63) : toI64 n = (n : Int) := by
  have hlt : n < U64 := by
    have h2 : (2:Nat) ^ 63 < 2 ^ 64 := by norm_num
    simp only [U64]
    omega
  simp only [toI64, Nat.mod_eq_of_lt hlt]
  rw [if_pos h]

/-- Helper: `wrapI64` is the identity on the `i64` range. -/
theorem wrapI64_eq_self (z : Int) (h1 : -(2 ^ 63) ≤ z) (h2 : z < 2 ^ 63) :
    wrapI64 z = z := by
  norm_num [wrapI64, toI64, U64] at h1 h2 ⊢
  split <;> omega

/-- Helper: the wrapping `u32` subtraction `length - 1` is the plain
subtraction for `1 ≤ length ≤ 64`. -/
theorem wsub32_small (length : Nat) (h1 : 1 ≤ length) (h2 : length ≤ 64) :
    wsub32 length 1 = length - 1 := by
  norm_num [wsub32, U32]
  omega

/-- Helper: for `1 ≤ length ≤ 64` the wrapping `i64` bounds computed by the
signed value check are exactly `2^(length-1) - 1` and `-2^(length-1)`
(for `length = 64` the intermediate `2i64.pow(63)` wraps to `-2^63`, but
the subtraction and negation wrap back to the correct bounds). -/
theorem signed_bounds (length : Nat) (h1 : 1 ≤ length) (h2 : length ≤ 64) :
    wrapI64 (wpow2I64 (wsub32 length 1) - 1) = 2 ^ (length - 1) - 1 ∧
    wrapI64 (-wpow2I64 (wsub32 length 1)) = -((2:Int) ^ (length - 1)) := by
  rw [wsub32_small length h1 h2]
  rcases Nat.lt_or_ge (length - 1) 63 with hc | hc
  · have hp : (2:Nat) ^ (length - 1) < 2 ^ 63 := Nat.pow_lt_pow_right (by norm_num) hc
    have hp2 : wpow2I64 (length - 1) = ((2 ^ (length - 1) : Nat) : Int) := toI64_of_lt _ hp
    have hcast : ((2 ^ (length - 1) : Nat) : Int) = (2:Int) ^ (length - 1) := by push_cast; ring
    have hub : (2:Int) ^ (length - 1) < 2 ^ 63 := by exact_mod_cast hp
    have hpos : (0:Int) < 2 ^ (length - 1) := by positivity
    have h63pos : (0:Int) < 2 ^ 63 := by positivity
    have hA : -((2:Int) ^ 63) ≤ 2 ^ (length - 1) - 1 := by linarith
    have hB : (2:Int) ^ (length - 1) - 1 < 2 ^ 63 := by linarith
    have hC : -((2:Int) ^ 63) ≤ -((2:Int) ^ (length - 1)) := by linarith
    have hD : -((2:Int) ^ (length - 1)) < 2 ^ 63 := by linarith
    rw [hp2, hcast]
    exact ⟨wrapI64_eq_self _ hA hB, wrapI64_eq_self _ hC hD⟩
  · have he : length - 1 = 63 := by omega
    rw [he]
    constructor
    · decide
    · decide

/-- Helper: exact characterisation of the signed value check for widths up
to 64 bits. -/
theorem checkValueSigned_ok_iff (nm : Str) (v : Int) (length : Nat)
    (hl : 1 ≤ length) (hl64 : length ≤ 64) :
    checkValueSigned nm (some (.Signed v)) length = .ok () ↔
      -((2:Int) ^ (length - 1)) ≤ v ∧ v ≤ 2 ^ (length - 1) - 1 := by
  obtain ⟨hA, hB⟩ := signed_bounds length hl hl64
  simp only [checkValueSigned]
  rw [hA, hB]
  split
  · next hc => exact iff_of_false (by simp) (by omega)
  · next hc => exact iff_of_true rfl (by omega)

/-- Helper: exact characterisation of the unsigned value check.  For
`length < 64` the bound is `2^length - 1`; for `length ≥ 64` the wrapping
arithmetic produces the bound `2^64 - 1`, which every `u64` value
satisfies, so the check coincides with `v ≤ 2^length - 1` for every
`u32` width. -/
theorem checkValueUnsigned_ok_iff (nm : Str) (v length : Nat) (hv : v < U64) :
    checkValueUnsigned nm (some (.Unsigned v)) length = .ok () ↔ v ≤ 2 ^ length - 1 := by
  simp only [checkValueUnsigned]
  rcases Nat.lt_or_ge length 64 with hc | hc
  · have hp : (2:Nat) ^ length < 2 ^ 64 := Nat.pow_lt_pow_right (by norm_num) hc
    have hp1 : (1:Nat) ≤ 2 ^ length := Nat.one_le_two_pow
    have hb : wsub64 (wpow64 2 length) 1 = 2 ^ length - 1 := by
      norm_num [wsub64, wpow64, U64]
      omega
    rw [hb]
    split
    · next h => exact iff_of_false (by simp) (by omega)
    · next h => exact iff_of_true rfl (by omega)
  · have hdvd : (2:Nat) ^ 64 ∣ 2 ^ length := pow_dvd_pow 2 hc
    obtain ⟨k, hk⟩ := hdvd
    have hmod : (2:Nat) ^ length % 2 ^ 64 = 0 := by rw [hk]; exact Nat.mul_mod_right _ _
    have h2l : (2:Nat) ^ 64 ≤ 2 ^ length := Nat.pow_le_pow_right (by norm_num) hc
    have hb : wsub64 (wpow64 2 length) 1 = U64 - 1 := by
      norm_num [wsub64, wpow64, U64]
      norm_num [U64] at hmod
      omega
    rw [hb]
    split
    · next h =>
      exact absurd h (by norm_num [U64] at hv ⊢; omega)
    · next h => exact iff_of_true rfl (by norm_num [U64] at hv; omega)

/-- C1: with `protocol = {addressMax: 15, dataMin: 1}` and a root `Set`
containing `a : Unsigned(8)` and `b : Unsigned(8)` with no explicit
addresses or access, elaboration succeeds, `a` resolves to address 0 with
access `Read`, `b` resolves to address 1 with access `Read`, and the
running cursor ends at 2. -/
theorem C1_two_field_scenario :
    render rootC1 protoC1 =
      (.mk "root" none none .Set (some (.More
        [.mk "a" (some 0) (some .Read) (.Unsigned 8) none none none none none "",
         .mk "b" (some 1) (some .Read) (.Unsigned 8) none none none none none ""]))
        none none none none "", .ok 2) := rfl

/-- C9: rendering a field whose type is `Enum` or `Bitfield` always
succeeds, leaves the field (address, access, value, range) exactly as it
was, and does not advance the running cursor. -/
theorem C9_enum_bitfield_noop :
    (∀ nm addr acc len map ct v u mn mx rg (p : Protocol) pa ra,
      render_recursive (.mk nm addr acc (.Enum len map) ct v u mn mx rg) p pa ra =
        (.mk nm addr acc (.Enum len map) ct v u mn mx rg, .ok ra)) ∧
    (∀ nm addr acc len bits ct v u mn mx rg (p : Protocol) pa ra,
      render_recursive (.mk nm addr acc (.Bitfield len bits) ct v u mn mx rg) p pa ra =
        (.mk nm addr acc (.Bitfield len bits) ct v u mn mx rg, .ok ra)) :=
  ⟨fun _ _ _ _ _ _ _ _ _ _ _ _ _ _ => rfl, fun _ _ _ _ _ _ _ _ _ _ _ _ _ _ => rfl⟩

/-- C5 counterexample: the claim says an `SFixed` leaf follows the four-step
leaf contract, in particular that with no explicit address it resolves its
address from the running cursor and advances the cursor by its footprint.
On the concrete `SFixed{high: 7, low: 0}` leaf at cursor 0 with
`dataMin = 1` the claim would give `address = some 0`, `access = some Read`
and final cursor 1, but the renderer returns the field unchanged
(`address = none`, `access = none`) and the cursor still at 0. -/
theorem C5_counterexample :
    render sfixedField protoC1 = (sfixedField, .ok 0) ∧
    Field.address (render sfixedField protoC1).1 = none ∧
    Field.access (render sfixedField protoC1).1 = none := ⟨rfl, rfl, rfl⟩

/-- C5 amended: rendering an `SFixed` field is currently a pass-through
no-op, exactly like `Enum` and `Bitfield`: it always succeeds, performs no
value validation, resolves neither access nor address, and does not advance
the running cursor. -/
theorem C5_sfixed_is_noop :
    ∀ nm addr acc high low ct v u mn mx rg (p : Protocol) pa ra,
      render_recursive (.mk nm addr acc (.SFixed high low) ct v u mn mx rg) p pa ra =
        (.mk nm addr acc (.SFixed high low) ct v u mn mx rg, .ok ra) :=
  fun _ _ _ _ _ _ _ _ _ _ _ _ _ _ => rfl

/-- C3 counterexample: in a root `Set` with no explicit access containing a
`Set` with explicit access `Write` containing a leaf with no explicit
access, the claim says the leaf inherits `Write` (the nearest ancestor that
specifies an access); the renderer instead resolves the leaf to `Read`,
because `render_recursive` passes its own `parent_access` argument to the
children of a `Set`, ignoring the `Set` node explicit access. -/
theorem C3_counterexample :
    render rootC3 protoC1 =
      (.mk "root" none none .Set (some (.One
        (.mk "inner" none (some .Write) .Set (some (.One
          (.mk "l" (some 0) (some .Read) (.Unsigned 8) none none none none none "")))
          none none none none ""))) none none none none "", .ok 1) ∧
    Access.Read ≠ Access.Write := ⟨rfl, by decide⟩

/-- C3 amended: the access passed to the children of a `Set` is the
inherited access the `Set` itself received from its parent; an explicit
access on a non-root `Set` is ignored for inheritance (and the `Set` own
access field is never resolved).  Only at the root does `render`
initialize the inherited access from the root field explicit access,
defaulting to `Read`. -/
theorem C3_set_children_get_parent_access :
    (∀ nm addr acc child v u mn mx rg (p : Protocol) pa ra,
      render_recursive (.mk nm addr acc .Set (some (.One child)) v u mn mx rg) p pa ra =
        (.mk nm addr acc .Set (some (.One (render_recursive child p pa ra).1)) v u mn mx rg,
          (render_recursive child p pa ra).2)) ∧
    (∀ nm addr acc children v u mn mx rg (p : Protocol) pa ra,
      render_recursive (.mk nm addr acc .Set (some (.More children)) v u mn mx rg) p pa ra =
        (.mk nm addr acc .Set (some (.More (render_list children p pa ra).1)) v u mn mx rg,
          (render_list children p pa ra).2)) ∧
    (∀ f (p : Protocol),
      render f p = render_recursive f p (f.access.getD .Read) (f.address.getD 0)) :=
  ⟨fun _ _ _ _ _ _ _ _ _ _ _ _ => rfl, fun _ _ _ _ _ _ _ _ _ _ _ _ => rfl,
   fun _ _ => rfl⟩

/-- C4: rendering a root `Enum` field succeeds but leaves its address and
access unresolved and its range annotation empty, contradicting the claim
that after successful elaboration every field (of every type) has a
concrete address, a resolved access and its range annotation filled in.
The renderer never writes `range` for any field type. -/
theorem C4_enum_left_unresolved :
    render enumField protoC1 = (enumField, .ok 0) ∧
    Field.address (render enumField protoC1).1 = none ∧
    Field.access (render enumField protoC1).1 = none ∧
    Field.range (render enumField protoC1).1 = "" := ⟨rfl, rfl, rfl, rfl⟩

/-- C10: the three arithmetic expressions named by the claim do overflow.
Under the overflow-checked (debug) profile, `2u64.pow(64)` in the
`Unsigned(64)` value check, `*length - 1` (u32) in the `Signed(0)` value
check, and `my_address + bytes` for an explicit address within footprint of
`2^64` all abort with an arithmetic-overflow panic instead of completing. -/
theorem C10_debug_arithmetic_overflows :
    checkedUnsignedBound 64 = none ∧
    checkedSub32 0 1 = none ∧
    checkedAdd64 (U64 - 1) (unsigned_bytes 8 1) = none := ⟨rfl, rfl, rfl⟩

/-- C2 counterexample: an `Unsigned(8)` leaf with the explicit address
`2^64 - 1` under `{addressMax: 15, dataMin: 1}` elaborates successfully
(the wrapping sum `(2^64 - 1) + 1` is 0, which passes the overflow check),
although its mathematical `resolved_address + footprint = 2^64` exceeds
`addressMax`, so success does not imply
`resolved_address + footprint ≤ addressMax` as the claim states. -/
theorem C2_counterexample :
    (render wrapField protoC1).2 = .ok 0 ∧
    Field.address (render wrapField protoC1).1 = some (U64 - 1) ∧
    (U64 - 1) + unsigned_bytes 8 protoC1.data_min > protoC1.address_max :=
  ⟨rfl, rfl, by norm_num [U64, unsigned_bytes, protoC1]⟩

/-- C8 counterexample: for the same `Unsigned(8)` leaf with explicit
address `2^64 - 1`, elaboration succeeds and the cursor handed to the next
field is 0, which is not the resolved address plus the footprint
(`2^64`): the cursor is the wrapped sum. -/
theorem C8_counterexample :
    (render wrapField protoC1).2 = .ok 0 ∧
    Field.address (render wrapField protoC1).1 = some (U64 - 1) ∧
    (U64 - 1) + unsigned_bytes 8 protoC1.data_min ≠ 0 :=
  ⟨rfl, rfl, by norm_num [U64, unsigned_bytes, protoC1]⟩

/-- C2 amended: for every leaf field of a handled type (`String`,
`Unsigned`, `Signed`, `UFixed`), elaboration succeeds only if the wrapping
`u64` sum `(resolved_address + footprint) mod 2^64` is at most
`protocol.addressMax`; when the value check passes and that wrapped sum
exceeds `addressMax`, it returns the address-overflow error (and the
mathematical sum equals the wrapped sum whenever it stays below `2^64`).
In the two-field scenario with `addressMax = 1`, elaborating `b` fails with
the address-overflow error while `a` remains resolved at address 0 (and `b`
own address and access, mutated before the check, remain at 1 and `Read`). -/
theorem C2_leaf_overflow_check :
    (∀ nm addr acc ft ct v u mn mx rg (p : Protocol) pa ra fp,
      leaf_footprint ft p.data_min = some fp →
      ((∀ ra2, (render_recursive (.mk nm addr acc ft ct v u mn mx rg) p pa ra).2 = .ok ra2 →
          wadd64 (addr.getD ra) fp ≤ p.address_max) ∧
        (leaf_value_check ft nm v = .ok () →
          wadd64 (addr.getD ra) fp > p.address_max →
          (render_recursive (.mk nm addr acc ft ct v u mn mx rg) p pa ra).2 =
            .error (.addressOverflow nm (addr.getD ra) p.address_max)))) ∧
    render rootC1 protoMax1 =
      (.mk "root" none none .Set (some (.More
        [.mk "a" (some 0) (some .Read) (.Unsigned 8) none none none none none "",
         .mk "b" (some 1) (some .Read) (.Unsigned 8) none none none none none ""]))
        none none none none "", .error (.addressOverflow "b" 1 1)) := by
  constructor
  · intro nm addr acc ft ct v u mn mx rg p pa ra fp hfp
    cases ft with
    | Set => simp [leaf_footprint] at hfp
    | Enum l m => simp [leaf_footprint] at hfp
    | Bitfield l b => simp [leaf_footprint] at hfp
    | SFixed hi lo => simp [leaf_footprint] at hfp
    | String l =>
      simp only [leaf_footprint, Option.some.injEq] at hfp
      subst hfp
      exact ⟨fun ra2 h => (render_string_ok nm addr acc _ ct v u mn mx rg l p pa ra ra2 h).2,
        fun hv hb => render_string_overflow nm addr acc _ ct v u mn mx rg l p pa ra hv hb⟩
    | Unsigned l =>
      simp only [leaf_footprint, Option.some.injEq] at hfp
      subst hfp
      exact ⟨fun ra2 h => (render_unsigned_ok nm addr acc _ ct v u mn mx rg l p pa ra ra2 h).2,
        fun hv hb => render_unsigned_overflow nm addr acc _ ct v u mn mx rg l p pa ra hv hb⟩
    | Signed l =>
      simp only [leaf_footprint, Option.some.injEq] at hfp
      subst hfp
      exact ⟨fun ra2 h => (render_signed_ok nm addr acc _ ct v u mn mx rg l p pa ra ra2 h).2,
        fun hv hb => render_signed_overflow nm addr acc _ ct v u mn mx rg l p pa ra hv hb⟩
    | UFixed hi lo =>
      simp only [leaf_footprint, Option.some.injEq] at hfp
      subst hfp
      exact ⟨fun ra2 h => (render_ufixed_ok nm addr acc _ ct v u mn mx rg hi lo p pa ra ra2 h).2,
        fun hv hb => render_ufixed_overflow nm addr acc _ ct v u mn mx rg hi lo p pa ra hv hb⟩
  · rfl

/-- C2 witness: an `Unsigned(8)` leaf with explicit address 1 under
`addressMax = 1` fails with the address-overflow error, obtained by
instantiating the general theorem. -/
theorem C2_witness :
    (render_recursive (.mk "x" (some 1) none (.Unsigned 8) none none none none none "")
        protoMax1 .Read 0).2 = .error (.addressOverflow "x" 1 1) :=
  (C2_leaf_overflow_check.1 "x" (some 1) none (.Unsigned 8) none none none none none ""
      protoMax1 .Read 0 (unsigned_bytes 8 protoMax1.data_min) rfl).2 rfl (by decide)

/-- C8 amended: after a leaf field of a handled type is successfully
elaborated, the running cursor used by the next field equals
`(resolved address + footprint) mod 2^64` — the end of the field just
processed (equal to the mathematical sum whenever it stays below `2^64`),
not the maximum cursor seen so far — and within a `Set` the next sibling
receives exactly the cursor the previous field produced. -/
theorem C8_cursor_is_end_of_field :
    (∀ nm addr acc ft ct v u mn mx rg (p : Protocol) pa ra fp ra2,
      leaf_footprint ft p.data_min = some fp →
      (render_recursive (.mk nm addr acc ft ct v u mn mx rg) p pa ra).2 = .ok ra2 →
      ra2 = wadd64 (addr.getD ra) fp) ∧
    (∀ f rest (p : Protocol) pa ra f2 ra2,
      render_recursive f p pa ra = (f2, .ok ra2) →
      render_list (f :: rest) p pa ra =
        (f2 :: (render_list rest p pa ra2).1, (render_list rest p pa ra2).2)) := by
  constructor
  · intro nm addr acc ft ct v u mn mx rg p pa ra fp ra2 hfp h
    cases ft with
    | Set => simp [leaf_footprint] at hfp
    | Enum l m => simp [leaf_footprint] at hfp
    | Bitfield l b => simp [leaf_footprint] at hfp
    | SFixed hi lo => simp [leaf_footprint] at hfp
    | String l =>
      simp only [leaf_footprint, Option.some.injEq] at hfp
      subst hfp
      exact (render_string_ok nm addr acc _ ct v u mn mx rg l p pa ra ra2 h).1
    | Unsigned l =>
      simp only [leaf_footprint, Option.some.injEq] at hfp
      subst hfp
      exact (render_unsigned_ok nm addr acc _ ct v u mn mx rg l p pa ra ra2 h).1
    | Signed l =>
      simp only [leaf_footprint, Option.some.injEq] at hfp
      subst hfp
      exact (render_signed_ok nm addr acc _ ct v u mn mx rg l p pa ra ra2 h).1
    | UFixed hi lo =>
      simp only [leaf_footprint, Option.some.injEq] at hfp
      subst hfp
      exact (render_ufixed_ok nm addr acc _ ct v u mn mx rg hi lo p pa ra ra2 h).1
  · intro f rest p pa ra f2 ra2 h
    simp only [render_list, h]

/-- C8 witness: an `Unsigned(8)` leaf with explicit address 4 under
`{addressMax: 15, dataMin: 1}` leaves the cursor at 5 = 4 + 1, obtained by
instantiating the general theorem. -/
theorem C8_witness :
    (5 : Nat) = wadd64 ((some 4 : Option Nat).getD 0) (unsigned_bytes 8 protoC1.data_min) :=
  C8_cursor_is_end_of_field.1 "x" (some 4) none (.Unsigned 8) none none none none none ""
    protoC1 .Read 0 (unsigned_bytes 8 protoC1.data_min) 5 rfl rfl

/-- C7: the byte footprint by which a successful `Unsigned(length)`
elaboration advances the cursor equals `max(ceil(length / 8), dataMin)`:
the renderer byte count equals that maximum, the natural ceiling division
`(length + 7) / 8` is exactly `ceil(length / 8)`, a successful render
leaves the cursor at the resolved address plus that footprint (wrapping
`u64` addition), and `length = 12` with `dataMin = 2` gives footprint 2. -/
theorem C7_unsigned_footprint :
    (∀ length dm, unsigned_bytes length dm = max ((length + 7) / 8) dm) ∧
    (∀ length : Nat, (⌈(length : ℚ) / 8⌉ : ℤ) = (((length + 7) / 8 : ℕ) : ℤ)) ∧
    (∀ nm addr acc ft ct v u mn mx rg length (p : Protocol) pa ra ra2,
      (render_field_type_unsigned (.mk nm addr acc ft ct v u mn mx rg) length p pa ra).2 = .ok ra2 →
      ra2 = wadd64 (addr.getD ra) (max ((length + 7) / 8) p.data_min)) ∧
    unsigned_bytes 12 2 = 2 := by
  have hmax : ∀ length dm, unsigned_bytes length dm = max ((length + 7) / 8) dm := by
    intro length dm
    simp only [unsigned_bytes]
    split <;> omega
  refine ⟨hmax, ?_, ?_, rfl⟩
  · intro length
    obtain ⟨k, hk⟩ : ∃ k, (length + 7) / 8 = k := ⟨_, rfl⟩
    rw [hk]
    have h1 : length ≤ 8 * k := by omega
    have h2 : 8 * k ≤ length + 7 := by omega
    have h1q : (length : ℚ) ≤ 8 * (k : ℚ) := by exact_mod_cast h1
    have h2q : (8 : ℚ) * (k : ℚ) ≤ (length : ℚ) + 7 := by exact_mod_cast h2
    rw [Int.ceil_eq_iff]
    constructor
    · rw [lt_div_iff₀ (by norm_num : (0:ℚ) < 8)]
      push_cast
      linarith
    · rw [div_le_iff₀ (by norm_num : (0:ℚ) < 8)]
      push_cast
      linarith
  · intro nm addr acc ft ct v u mn mx rg length p pa ra ra2 h
    exact ((render_unsigned_ok nm addr acc ft ct v u mn mx rg length p pa ra ra2 h).1).trans
      (by rw [hmax])

/-- C7 witness: an `Unsigned(8)` leaf at cursor 0 with `dataMin = 1` ends
with cursor `max(ceil(8/8), 1) = 1`, obtained by instantiating the general
theorem. -/
theorem C7_witness :
    (1 : Nat) = wadd64 ((none : Option Nat).getD 0) (max ((8 + 7) / 8) protoC1.data_min) :=
  C7_unsigned_footprint.2.2.1 "a" none none (.Unsigned 8) none none none none none ""
    8 protoC1 .Read 0 1 rfl

/-- C6 counterexample: for a `Signed(65)` field with value 0 the claim's
bound `-2^(65-1) ≤ 0 ≤ 2^(65-1) - 1` holds, so the claim says the value
check succeeds; the code rejects the value (the wrapping `i64` arithmetic
degenerates the bounds to `-1` and `0` for widths of 65 bits and more, so
every value is rejected). -/
theorem C6_counterexample :
    checkValueSigned "s" (some (.Signed 0)) 65 = .error (.valueTooWide "s") ∧
    -((2:Int) ^ (65 - 1)) ≤ 0 ∧ (0:Int) ≤ 2 ^ (65 - 1) - 1 :=
  ⟨rfl, by norm_num, by norm_num⟩

/-- C6 amended: for an `Unsigned(length)` field carrying
`Value::Unsigned(v)` (a `u64`, so `0 ≤ v` holds by construction) the value
check succeeds iff `v ≤ 2^length - 1`, for every width; for a
`Signed(length)` field carrying `Value::Signed(v)` the check succeeds iff
`-2^(length-1) ≤ v ≤ 2^(length-1) - 1`, provided `1 ≤ length ≤ 64` (for
`length ≥ 65` the wrapped bounds degenerate and every value is rejected);
and the `Unsigned(4)` field with value 20 fails value-range validation. -/
theorem C6_value_range_check :
    (∀ nm (v length : Nat), v < U64 →
      (checkValueUnsigned nm (some (.Unsigned v)) length = .ok () ↔ v ≤ 2 ^ length - 1)) ∧
    (∀ nm (v : Int) (length : Nat), 1 ≤ length → length ≤ 64 →
      (checkValueSigned nm (some (.Signed v)) length = .ok () ↔
        -((2:Int) ^ (length - 1)) ≤ v ∧ v ≤ 2 ^ (length - 1) - 1)) ∧
    (render unsigned4Field protoC1).2 = .error (.valueTooWide "f") :=
  ⟨checkValueUnsigned_ok_iff, checkValueSigned_ok_iff, rfl⟩

/-- C6 witness: `Unsigned(4)` accepts the value 5, obtained by
instantiating the general theorem. -/
theorem C6_witness :
    checkValueUnsigned "x" (some (.Unsigned 5)) 4 = .ok () :=
  (C6_value_range_check.1 "x" 5 4 (by norm_num [U64])).2 (by norm_num)

end Schema
